import Mathlib

/-!
A shallow embedding of the Starlark DAP (Debug Adapter Protocol) backend in
`starlark/bin/dap/mod.rs`, together with proofs about its request handlers.

Interpreter capabilities (parsing, expression evaluation, call-stack and
binding introspection, span lookup) are external collaborators of this file's
source; the handlers receive their results as explicit parameters here.
Handler code that can panic (an `unwrap()` on `None` or on a disconnected
channel) is embedded as a function returning `Option`, with `none` standing
for the panic.
-/

set_option autoImplicit false

namespace StarlarkDap

/-- A source position as produced by the interpreter's span lookup
(0-based line and column). -/
structure Pos where
  line : Nat
  column : Nat
deriving DecidableEq, Repr

/-- The interpreter's `SpanLoc`: a resolved source range with its owning file.
The field `end_` embeds the Rust field `end` (a Lean keyword). -/
structure SpanLoc where
  file : String
  begin : Pos
  end_ : Pos
deriving DecidableEq, Repr

/-- The interpreter's opaque `Span` identity; equality is by identity,
so an opaque id suffices. -/
abbrev Span := Nat

/-- One entry of `ctx.call_stack().to_diagnostic_frames()`: the frame's name
and the location of the call that created it (where the frame called from,
not where it currently is). -/
structure CallFrame where
  name : String
  location : Option SpanLoc
deriving DecidableEq, Repr

/-- The protocol `Source` attached to a stack frame (only `path` is ever
populated by this backend). -/
structure Source where
  path : Option String
deriving DecidableEq, Repr

/-- The protocol `StackFrame` fields this backend populates
(`module_id` and `presentation_hint` are always `None` and omitted). -/
structure StackFrame where
  id : Int
  name : String
  column : Int
  line : Int
  end_column : Option Int
  end_line : Option Int
  source : Option Source
deriving DecidableEq, Repr

/-- The body of a `stackTrace` response. -/
structure StackTraceResponseBody where
  stack_frames : List StackFrame
  total_frames : Option Int
deriving DecidableEq, Repr

/-- Embeds `convert_frame` from `stack_trace`: a frame with no location keeps
line = 0, column = 0 and no source; a present location is shifted from the
interpreter's 0-based lines/columns to the protocol's 1-based ones and gets
a source path. -/
def convert_frame (id : Nat) (name : String) (location : Option SpanLoc) : StackFrame :=
  let s : StackFrame :=
    { id := (id : Int), name := name, column := 0, line := 0,
      end_column := none, end_line := none, source := none }
  match location with
  | none => s
  | some loc =>
      { s with
        line := (loc.begin.line : Int) + 1,
        column := (loc.begin.column : Int) + 1,
        end_line := some ((loc.end_.line : Int) + 1),
        end_column := some ((loc.end_.column : Int) + 1),
        source := some { path := some loc.file } }

/-- Embeds the loop body of `stack_trace`: walking the (already reversed)
diagnostic frames, each frame is emitted with the location carried in `next`,
and `next` is then replaced by that frame's recorded call-site; afterwards a
synthetic "Root" frame (id 10000) is emitted with the final `next`. -/
def stackTraceLoop (next : Option SpanLoc) (i : Nat) : List CallFrame → List StackFrame
  | [] => [convert_frame 10000 "Root" next]
  | x :: xs => convert_frame i x.name next :: stackTraceLoop x.location (i + 1) xs

/-- Embeds the `stack_trace` handler's unit of work: `pauseLoc` is
`ctx.look_up_span span` for the pause span, `frames` is
`ctx.call_stack().to_diagnostic_frames()` in interpreter order
(outermost first); the code iterates over `frames.iter().rev()`. -/
def stack_trace (pauseLoc : SpanLoc) (frames : List CallFrame) : StackTraceResponseBody :=
  let res := stackTraceLoop (some pauseLoc) 0 frames.reverse
  { stack_frames := res, total_frames := some (res.length : Int) }

/-- The location the synthetic Root frame ends up with: the last recorded
call-site along the walked list, or the initial `next` if the list is empty. -/
def rootLoc (next : Option SpanLoc) : List CallFrame → Option SpanLoc
  | [] => next
  | x :: xs => rootLoc x.location xs

theorem stackTraceLoop_length (l : List CallFrame) (next : Option SpanLoc) (i : Nat) :
    (stackTraceLoop next i l).length = l.length + 1 := by
  induction l generalizing next i with
  | nil => rfl
  | cons x xs ih => simp [stackTraceLoop, ih]

theorem stackTraceLoop_getElem_zero (next : Option SpanLoc) (i : Nat)
    (x : CallFrame) (xs : List CallFrame) :
    (stackTraceLoop next i (x :: xs))[0]? = some (convert_frame i x.name next) := by
  simp [stackTraceLoop]

theorem stackTraceLoop_getElem_succ (l : List CallFrame) (j : Nat)
    (next : Option SpanLoc) (i : Nat) (x y : CallFrame)
    (hy : l[j]? = some y) (hx : l[j + 1]? = some x) :
    (stackTraceLoop next i l)[j + 1]? = some (convert_frame (i + (j + 1)) x.name y.location) := by
  induction l generalizing j next i with
  | nil => simp at hy
  | cons z zs ih =>
    cases j with
    | zero =>
      simp only [List.getElem?_cons_zero, Option.some_inj] at hy
      subst hy
      simp only [List.getElem?_cons_succ] at hx
      cases zs with
      | nil => simp at hx
      | cons w ws =>
        simp only [List.getElem?_cons_zero, Option.some_inj] at hx
        subst hx
        simp [stackTraceLoop]
    | succ k =>
      simp only [List.getElem?_cons_succ] at hy hx
      have := ih k z.location (i + 1) hy hx
      calc (stackTraceLoop next i (z :: zs))[k + 1 + 1]?
          = (stackTraceLoop z.location (i + 1) zs)[k + 1]? := by
            simp [stackTraceLoop]
        _ = some (convert_frame (i + 1 + (k + 1)) x.name y.location) := this
        _ = some (convert_frame (i + (k + 1 + 1)) x.name y.location) := by
            congr 2
            omega

theorem stackTraceLoop_getElem_last (l : List CallFrame) (next : Option SpanLoc) (i : Nat) :
    (stackTraceLoop next i l)[l.length]? = some (convert_frame 10000 "Root" (rootLoc next l)) := by
  induction l generalizing next i with
  | nil => rfl
  | cons x xs ih => simpa [stackTraceLoop, rootLoc] using ih x.location (i + 1)

theorem rootLoc_of_getLast (l : List CallFrame) (next : Option SpanLoc) (x : CallFrame)
    (h : l.getLast? = some x) : rootLoc next l = x.location := by
  induction l generalizing next with
  | nil => simp at h
  | cons z zs ih =>
    cases zs with
    | nil =>
      simp only [List.getLast?_singleton, Option.some_inj] at h
      subst h
      rfl
    | cons w ws =>
      rw [List.getLast?_cons_cons] at h
      exact ih x.location h

theorem stack_trace_stack_frames (pauseLoc : SpanLoc) (frames : List CallFrame) :
    (stack_trace pauseLoc frames).stack_frames =
      stackTraceLoop (some pauseLoc) 0 frames.reverse := rfl

theorem stack_trace_getLast (pauseLoc : SpanLoc) (frames : List CallFrame) :
    (stack_trace pauseLoc frames).stack_frames.getLast? =
      some (convert_frame 10000 "Root" (rootLoc (some pauseLoc) frames.reverse)) := by
  rw [stack_trace_stack_frames, List.getLast?_eq_getElem?, stackTraceLoop_length]
  simpa using stackTraceLoop_getElem_last frames.reverse (some pauseLoc) 0

theorem rootLoc_reverse_head (frames : List CallFrame) (next : Option SpanLoc)
    (x : CallFrame) (h : frames[0]? = some x) :
    rootLoc next frames.reverse = x.location := by
  apply rootLoc_of_getLast
  rw [List.getLast?_reverse, List.head?_eq_getElem?]
  exact h

/-- C1: a `stackTrace` response answered while paused has exactly
call-stack-depth + 1 frames: the interpreter call stack reversed (innermost
first) followed by one synthetic "Root" frame; frame 0's reported location is
the pause span; for i ≥ 1 frame i's reported location is the call-site
location recorded in reported frame i−1's call-stack entry; and the last
(Root) frame's location is the outermost call-site. -/
theorem stack_trace_frames_spec (pauseLoc : SpanLoc) (frames : List CallFrame) :
    (stack_trace pauseLoc frames).stack_frames.length = frames.length + 1 ∧
    (∀ x, frames.reverse[0]? = some x →
      (stack_trace pauseLoc frames).stack_frames[0]? =
        some (convert_frame 0 x.name (some pauseLoc))) ∧
    (∀ i x y, 1 ≤ i → frames.reverse[i]? = some x → frames.reverse[i - 1]? = some y →
      (stack_trace pauseLoc frames).stack_frames[i]? =
        some (convert_frame i x.name y.location)) ∧
    (∀ x, frames[0]? = some x →
      (stack_trace pauseLoc frames).stack_frames.getLast? =
        some (convert_frame 10000 "Root" x.location)) := by
  refine ⟨?_, ?_, ?_, ?_⟩
  · rw [stack_trace_stack_frames, stackTraceLoop_length, List.length_reverse]
  · intro x hx
    rw [stack_trace_stack_frames]
    cases hrev : frames.reverse with
    | nil => rw [hrev] at hx; simp at hx
    | cons a t =>
      rw [hrev] at hx
      simp only [List.getElem?_cons_zero, Option.some_inj] at hx
      subst hx
      exact stackTraceLoop_getElem_zero (some pauseLoc) 0 a t
  · intro i x y h1 hx hy
    rw [stack_trace_stack_frames]
    cases i with
    | zero => omega
    | succ j =>
      simp only [Nat.add_sub_cancel] at hy
      simpa using stackTraceLoop_getElem_succ frames.reverse j (some pauseLoc) 0 x y hy hx
  · intro x hx
    rw [stack_trace_getLast, rootLoc_reverse_head frames (some pauseLoc) x hx]

/-- Concrete pause location used by the `stackTrace` witnesses. -/
def pauseLocW : SpanLoc := ⟨"a.star", ⟨9, 4⟩, ⟨9, 8⟩⟩

/-- Call-site of the outermost call in the witness stack. -/
def locOuterW : SpanLoc := ⟨"a.star", ⟨1, 0⟩, ⟨1, 5⟩⟩

/-- Call-site recorded in the innermost frame of the witness stack. -/
def locInnerW : SpanLoc := ⟨"a.star", ⟨3, 2⟩, ⟨3, 7⟩⟩

/-- A 2-deep diagnostic call stack in interpreter order (outermost first). -/
def framesW : List CallFrame := [⟨"f", some locOuterW⟩, ⟨"g", some locInnerW⟩]

/-- Witness for C1 at a concrete 2-deep stack. -/
theorem stack_trace_frames_spec_witness :
    (stack_trace pauseLocW framesW).stack_frames.length = 3 ∧
    (stack_trace pauseLocW framesW).stack_frames[0]? =
      some (convert_frame 0 "g" (some pauseLocW)) ∧
    (stack_trace pauseLocW framesW).stack_frames[1]? =
      some (convert_frame 1 "f" (some locInnerW)) ∧
    (stack_trace pauseLocW framesW).stack_frames.getLast? =
      some (convert_frame 10000 "Root" (some locOuterW)) :=
  ⟨(stack_trace_frames_spec pauseLocW framesW).1,
   (stack_trace_frames_spec pauseLocW framesW).2.1 ⟨"g", some locInnerW⟩ rfl,
   (stack_trace_frames_spec pauseLocW framesW).2.2.1 1 ⟨"f", some locOuterW⟩
     ⟨"g", some locInnerW⟩ (by decide) rfl rfl,
   (stack_trace_frames_spec pauseLocW framesW).2.2.2 ⟨"f", some locOuterW⟩ rfl⟩

/-- Pause location for the C2 counterexample (0-based line 5, reported as the
1-based line 6). -/
def pauseLocC2 : SpanLoc := ⟨"test.star", ⟨5, 0⟩, ⟨5, 10⟩⟩

/-- Call-site recorded in the single stack entry of the C2 counterexample
(0-based line 1, reported as the 1-based line 2). -/
def callSiteC2 : SpanLoc := ⟨"test.star", ⟨1, 0⟩, ⟨1, 4⟩⟩

/-- A 1-deep call stack whose outermost call-site differs from the pause span. -/
def framesC2 : List CallFrame := [⟨"f", some callSiteC2⟩]

/-- C2 counterexample: with the nonempty call stack `framesC2` paused at
`pauseLocC2`, the synthetic Root frame is the converted outermost recorded
call-site `callSiteC2` (reported line 2), not the pause span (which would
report line 6) — refuting the claim that Root is assigned the pause span. -/
theorem stack_trace_root_counterexample :
    (stack_trace pauseLocC2 framesC2).stack_frames.getLast? =
      some (convert_frame 10000 "Root" (some callSiteC2)) ∧
    (stack_trace pauseLocC2 framesC2).stack_frames.getLast? ≠
      some (convert_frame 10000 "Root" (some pauseLocC2)) := by decide

/-- C2 amended: the Root frame is assigned the pause span only when the
interpreter call stack is empty; when it is nonempty, Root is assigned the
outermost call-stack entry's recorded call-site location. -/
theorem stack_trace_root_location (pauseLoc : SpanLoc) (frames : List CallFrame) :
    (frames = [] →
      (stack_trace pauseLoc frames).stack_frames.getLast? =
        some (convert_frame 10000 "Root" (some pauseLoc))) ∧
    (∀ x, frames[0]? = some x →
      (stack_trace pauseLoc frames).stack_frames.getLast? =
        some (convert_frame 10000 "Root" x.location)) := by
  constructor
  · intro h
    subst h
    rfl
  · intro x hx
    rw [stack_trace_getLast, rootLoc_reverse_head frames (some pauseLoc) x hx]

/-- Witness for C2's amended claim: the empty-stack case and a 2-deep case. -/
theorem stack_trace_root_location_witness :
    (stack_trace pauseLocW []).stack_frames.getLast? =
      some (convert_frame 10000 "Root" (some pauseLocW)) ∧
    (stack_trace pauseLocW framesW).stack_frames.getLast? =
      some (convert_frame 10000 "Root" (some locOuterW)) :=
  ⟨(stack_trace_root_location pauseLocW []).1 rfl,
   (stack_trace_root_location pauseLocW framesW).2 ⟨"f", some locOuterW⟩ rfl⟩

/-- The breakpoint registry `HashMap<String, HashSet<Span>>`, embedded as an
association list from file path to the set (list) of registered spans. -/
abbrev Registry := List (String × List Span)

/-- `HashMap::remove` on the registry. -/
def Registry.remove (r : Registry) (k : String) : Registry :=
  r.filter (fun p => p.1 ≠ k)

/-- `HashMap::insert` on the registry (replaces any existing entry). -/
def Registry.insert (r : Registry) (k : String) (v : List Span) : Registry :=
  (k, v) :: r.remove k

/-- `HashMap::get` on the registry. -/
def Registry.get (r : Registry) (k : String) : Option (List Span) :=
  (r.find? (fun p => p.1 = k)).map (·.2)

/-- A requested breakpoint from the client (`SourceBreakpoint`): its 1-based
line. -/
structure SourceBreakpoint where
  line : Nat
deriving DecidableEq, Repr

/-- The response-side `Breakpoint`; the `breakpoint` helper in the source sets
every field but `verified` to `None`, so only `verified` is embedded. -/
structure Breakpoint where
  verified : Bool
deriving DecidableEq, Repr

/-- Embeds the `breakpoint` helper. -/
def breakpoint (verified : Bool) : Breakpoint := { verified }

/-- The parts of a parsed `AstModule` that `set_breakpoints` consumes: the
statement-start spans from `debug::stmt_locations` and the `look_up_span`
resolution of each span. -/
structure AstModule where
  stmtLocations : List Span
  lookUpSpan : Span → SpanLoc

/-- The `poss` pairs of `set_breakpoints`: each statement-start span keyed by
the 0-based begin line of its resolved location, in iteration order (a
`HashMap` collected from this list keeps the last pair for a duplicate key). -/
def buildPoss (ast : AstModule) : List (Nat × Span) :=
  ast.stmtLocations.map (fun x => ((ast.lookUpSpan x).begin.line, x))

/-- `HashMap::get` on the collected `poss` pairs: the value of the last pair
carrying the key, if any. -/
def possGet (m : List (Nat × Span)) (k : Nat) : Option Span :=
  (m.reverse.find? (fun p => p.1 = k)).map (·.2)

/-- Embeds the `set_breakpoints` handler. `sourcePath` is `x.source.path`
(the source `unwrap()`s it: absence panics, embedded as result `none`);
`reqBps` is `x.breakpoints` (`unwrap_or_default`); `parsed` is the outcome of
`AstModule::parse_file` on the source file (an interpreter capability).
Returns the updated registry and the response body's breakpoint list. -/
def set_breakpoints (registry : Registry) (sourcePath : Option String)
    (reqBps : Option (List SourceBreakpoint)) (parsed : Except Unit AstModule) :
    Option (Registry × List Breakpoint) :=
  let bps := reqBps.getD []
  match sourcePath with
  | none => none
  | some source =>
    if bps.isEmpty then
      some (registry.remove source, [])
    else
      match parsed with
      | .error _ =>
          some (registry.remove source, List.replicate bps.length (breakpoint false))
      | .ok ast =>
          let poss := buildPoss ast
          let list := bps.map (fun x => possGet poss (x.line - 1))
          some (registry.insert source (list.filterMap id),
                list.map (fun x => breakpoint x.isSome))

theorem isSome_find?_eq_any {α : Type} (l : List α) (p : α → Bool) :
    (l.find? p).isSome = l.any p := by
  induction l with
  | nil => rfl
  | cons x xs ih => by_cases h : p x <;> simp [List.find?_cons, h, ih]

theorem any_map_general {α β : Type} (l : List α) (f : α → β) (p : β → Bool) :
    (l.map f).any p = l.any (fun a => p (f a)) := by
  induction l with
  | nil => rfl
  | cons x xs ih => simp [ih]

theorem possGet_isSome (ast : AstModule) (k : Nat) :
    (possGet (buildPoss ast) k).isSome =
      ast.stmtLocations.any (fun s => (ast.lookUpSpan s).begin.line = k) := by
  simp only [possGet, buildPoss, Option.isSome_map', isSome_find?_eq_any,
    List.any_reverse]
  rw [any_map_general]

theorem find?_filter_ne (t : List (String × List Span)) (k : String) :
    (t.filter (fun p => p.1 ≠ k)).find? (fun p => p.1 = k) = none := by
  induction t with
  | nil => rfl
  | cons p t ih =>
    by_cases h : p.1 = k
    · simp [List.filter_cons, h, ih]
    · simp [List.filter_cons, List.find?_cons, h, ih]

theorem Registry.get_remove_self (r : Registry) (k : String) :
    (r.remove k).get k = none := by
  unfold Registry.remove Registry.get
  rw [find?_filter_ne]
  rfl

/-- C3: a `setBreakpoints` request with a non-empty line list on a file that
parses successfully gets one verified flag per requested line, in request
order, true exactly when some statement-start span of the freshly parsed file
begins at 0-based line `requestedLine - 1` (exact match, no fallback). -/
theorem set_breakpoints_parse_ok_spec (registry : Registry) (source : String)
    (bps : List SourceBreakpoint) (ast : AstModule)
    (hne : bps ≠ []) (_hl : ∀ b ∈ bps, 1 ≤ b.line) :
    Option.map Prod.snd (set_breakpoints registry (some source) (some bps) (.ok ast)) =
      some (bps.map (fun b =>
        breakpoint (ast.stmtLocations.any
          (fun s => (ast.lookUpSpan s).begin.line = b.line - 1)))) := by
  have h : bps.isEmpty = false := List.isEmpty_eq_false.mpr hne
  simp [set_breakpoints, h, List.map_map, Function.comp, possGet_isSome]

/-- A statement-start layout for the C3 witness: statements begin at 0-based
lines 0 and 4. -/
def astW : AstModule :=
  { stmtLocations := [100, 200],
    lookUpSpan := fun s =>
      if s = 100 then ⟨"w.star", ⟨0, 0⟩, ⟨0, 5⟩⟩ else ⟨"w.star", ⟨4, 0⟩, ⟨4, 9⟩⟩ }

/-- Witness for C3: requested lines 1, 3, 5 yield verified flags
true, false, true in request order. -/
theorem set_breakpoints_parse_ok_spec_witness :
    Option.map Prod.snd
        (set_breakpoints [] (some "w.star") (some [⟨1⟩, ⟨3⟩, ⟨5⟩]) (.ok astW)) =
      some [breakpoint true, breakpoint false, breakpoint true] := by
  have := set_breakpoints_parse_ok_spec [] "w.star" [⟨1⟩, ⟨3⟩, ⟨5⟩] astW
    (by decide) (by decide)
  simpa [astW, breakpoint] using this

/-- C4: a `setBreakpoints` request with a non-empty line list on a file that
fails to parse removes the registry entry for that file and answers
`verified = false` for every requested line. -/
theorem set_breakpoints_parse_fail_spec (registry : Registry) (source : String)
    (bps : List SourceBreakpoint) (hne : bps ≠ []) :
    set_breakpoints registry (some source) (some bps) (.error ()) =
      some (registry.remove source, List.replicate bps.length (breakpoint false)) ∧
    (registry.remove source).get source = none := by
  have h : bps.isEmpty = false := List.isEmpty_eq_false.mpr hne
  exact ⟨by simp [set_breakpoints, h], Registry.get_remove_self registry source⟩

/-- Witness for C4: two requested lines on an unparsable file, with a prior
registry entry for it. -/
theorem set_breakpoints_parse_fail_spec_witness :
    set_breakpoints [("w.star", [100])] (some "w.star") (some [⟨1⟩, ⟨2⟩]) (.error ()) =
      some (Registry.remove [("w.star", [100])] "w.star",
        List.replicate 2 (breakpoint false)) ∧
    (Registry.remove [("w.star", [100])] "w.star").get "w.star" = none :=
  set_breakpoints_parse_fail_spec [("w.star", [100])] "w.star" [⟨1⟩, ⟨2⟩] (by decide)

/-- C5 counterexample: a `setBreakpoints` request whose source carries no path
hits `x.source.path.unwrap()` and panics (embedded as `none`) instead of being
absorbed into a typed response or a request-level error. -/
theorem set_breakpoints_no_path_aborts :
    (set_breakpoints [] none (some [⟨1⟩]) (.error ())).isSome = false := by decide

/-- C5 amended: request handlers absorb failures into typed responses or
request-level errors except for the panicking `unwrap()`s; in particular, with
a source path present, `set_breakpoints` always returns a typed response, for
any registry, requested lines and parse outcome. -/
theorem set_breakpoints_with_path_responds (registry : Registry) (source : String)
    (reqBps : Option (List SourceBreakpoint)) (parsed : Except Unit AstModule) :
    (set_breakpoints registry (some source) reqBps parsed).isSome = true := by
  by_cases h : (reqBps.getD []).isEmpty <;> cases parsed <;>
    simp [set_breakpoints, h]

/-- A `serde_json::Value`, as far as the `launch` handler inspects it. -/
inductive JsonValue where
  | null
  | bool (b : Bool)
  | number (n : Int)
  | str (s : String)
  | arr (xs : List JsonValue)
  | obj (fields : List (String × JsonValue))

/-- `Map::get` on the launch arguments object (keys are unique in a
`serde_json::Map`, so first match suffices). -/
def mapGet (args : List (String × JsonValue)) (k : String) : Option JsonValue :=
  (args.find? (fun p => p.1 = k)).map (·.2)

/-- The session state of the `Backend` that the handlers mutate directly:
the pending launch target `file` and the breakpoint registry. -/
structure BackendState where
  file : Option String
  breakpoints : Registry
deriving DecidableEq, Repr

/-- Embeds the `launch` handler: a string `program` argument is stored as the
pending launch target and the request succeeds; any other argument shape
fails with an argument error and leaves the state unchanged. -/
def launch (st : BackendState) (args : List (String × JsonValue)) :
    BackendState × Except String Unit :=
  match mapGet args "program" with
  | some (JsonValue.str path) => ({ st with file := some path }, .ok ())
  | _ => (st, .error "Couldn't find a program to launch")

/-- C6: `launch` stores a string `program` argument as the pending launch
target and succeeds; for any other argument shape it fails with an argument
error and leaves the session state (launch target and registry) unchanged. -/
theorem launch_spec (st : BackendState) (args : List (String × JsonValue)) :
    (∀ p, mapGet args "program" = some (JsonValue.str p) →
      launch st args = ({ st with file := some p }, .ok ())) ∧
    ((∀ p, mapGet args "program" ≠ some (JsonValue.str p)) →
      launch st args = (st, .error "Couldn't find a program to launch")) := by
  constructor
  · intro p hp
    simp [launch, hp]
  · intro hp
    unfold launch
    cases hv : mapGet args "program" with
    | none => rfl
    | some v =>
      cases v with
      | str s => exact absurd hv (hp s)
      | null => rfl
      | bool b => rfl
      | number n => rfl
      | arr xs => rfl
      | obj fields => rfl

/-- A fresh backend state for the launch witness. -/
def stW : BackendState := { file := none, breakpoints := [] }

/-- Witness for C6: a string `program` is stored; a numeric `program` is
rejected without a state change. -/
theorem launch_spec_witness :
    launch stW [("program", JsonValue.str "a.star")] =
      ({ stW with file := some "a.star" }, .ok ()) ∧
    launch stW [("program", JsonValue.number 3)] =
      (stW, .error "Couldn't find a program to launch") :=
  ⟨(launch_spec stW [("program", JsonValue.str "a.star")]).1 "a.star" rfl,
   (launch_spec stW [("program", JsonValue.number 3)]).2
     (fun p hp => by simp [mapGet] at hp)⟩

/-- The per-statement hook installed on the evaluator (`ctx.on_stmt` holds a
reference to the debugger's closure; its identity is embedded as an opaque
id). -/
structure Hook where
  id : Nat
deriving DecidableEq, Repr

/-- The slice of evaluator state the `evaluate` handler manipulates: the
installed per-statement hook. -/
structure EvaluatorState where
  on_stmt : Option Hook
deriving DecidableEq, Repr

/-- A protocol event emitted by the backend. -/
inductive Event where
  | initialized
  | stopped
  | output (text : String)
  | exited (code : Nat)
  | terminated
deriving DecidableEq, Repr

/-- The body of an `evaluate` response (the `f64` field `variables_reference`
is always the constant `0.0`, embedded as `0 : Nat`). -/
structure EvaluateResponseBody where
  result : String
  variables_reference : Nat
deriving DecidableEq, Repr

/-- Modelled from the spec: expression evaluation (`debug::evaluate`, an
interpreter capability outside this file's source) executes the expression's
statements, invoking the evaluator's per-statement hook (when one is
installed) before each; the installed debugger hook emits a `stopped` event
whenever the statement's span is a registered breakpoint. `stmts` are the
spans of the statements the expression executes and `shouldBreak` is the
registry membership check. -/
def hookEvents (st : EvaluatorState) (shouldBreak : Span → Bool)
    (stmts : List Span) : List Event :=
  match st.on_stmt with
  | none => []
  | some _ => (stmts.filter shouldBreak).map (fun _ => Event.stopped)

/-- Embeds the `evaluate` handler's unit of work: `mem::take` the `on_stmt`
hook (so the evaluation below runs with no hook installed), evaluate the
expression, restore the hook, and answer with the stringified result or the
formatted error. `exprResult` is the interpreter's outcome for the expression
(`Ok` carries the value's rendered string, `Err` the formatted error text). -/
def evaluate (st : EvaluatorState) (shouldBreak : Span → Bool)
    (stmts : List Span) (exprResult : Except String String) :
    EvaluatorState × List Event × Except String EvaluateResponseBody :=
  let old := st.on_stmt
  let st1 : EvaluatorState := { st with on_stmt := none }
  let events := hookEvents st1 shouldBreak stmts
  let s := match exprResult with
    | .error e => e
    | .ok v => v
  let st2 : EvaluatorState := { st1 with on_stmt := old }
  (st2, events, .ok { result := s, variables_reference := 0 })

/-- C7: during `evaluate` the per-statement hook is taken out and restored,
so the evaluation emits no `stopped` event (even when the expression executes
a statement whose span is a registered breakpoint), the hook state after the
request equals the one before it, and the response is never a failed request:
its text is the stringified result or the formatted error. -/
theorem evaluate_spec (st : EvaluatorState) (shouldBreak : Span → Bool)
    (stmts : List Span) (exprResult : Except String String) :
    (evaluate st shouldBreak stmts exprResult).1.on_stmt = st.on_stmt ∧
    Event.stopped ∉ (evaluate st shouldBreak stmts exprResult).2.1 ∧
    (evaluate st shouldBreak stmts exprResult).2.2 =
      .ok { result := match exprResult with | .error e => e | .ok v => v,
            variables_reference := 0 } := by
  refine ⟨rfl, ?_, rfl⟩
  simp [evaluate, hookEvents]

/-- Parse and evaluation outcomes feeding the execution thread, each carrying
its already-rendered text (`v.to_string()` on success, `format!` on error). -/
def go (parseResult : Except String AstModule)
    (evalModule : AstModule → Except String String) : Except String String :=
  match parseResult with
  | .error e => .error e
  | .ok ast => evalModule ast

/-- Embeds the tail of the thread spawned by `execute`: once `go` finishes,
emit an output event with the result or error text, an exited event with code
0 on success and 1 on error, and a terminated event. -/
def executionThreadEvents (res : Except String String) : List Event :=
  [ Event.output (match res with | .error e => e | .ok v => v),
    Event.exited (match res with | .ok _ => 0 | .error _ => 1),
    Event.terminated ]

/-- Embeds `execute`'s spawned thread: run the module (parse, then evaluate)
and emit the completion events. -/
def execute (parseResult : Except String AstModule)
    (evalModule : AstModule → Except String String) : List Event :=
  executionThreadEvents (go parseResult evalModule)

/-- C8: when module evaluation completes — with a value, with a runtime
error, or with a parse error at launch — the controller emits exactly one
output event carrying the result or formatted error text, then one exited
event with code 0 on success and 1 on error, then one terminated event. -/
theorem execute_events_spec (parseResult : Except String AstModule)
    (evalModule : AstModule → Except String String) :
    (∀ e, parseResult = .error e →
      execute parseResult evalModule =
        [Event.output e, Event.exited 1, Event.terminated]) ∧
    (∀ ast v, parseResult = .ok ast → evalModule ast = .ok v →
      execute parseResult evalModule =
        [Event.output v, Event.exited 0, Event.terminated]) ∧
    (∀ ast e, parseResult = .ok ast → evalModule ast = .error e →
      execute parseResult evalModule =
        [Event.output e, Event.exited 1, Event.terminated]) := by
  refine ⟨?_, ?_, ?_⟩
  · intro e he
    simp [execute, go, executionThreadEvents, he]
  · intro ast v hp hv
    simp [execute, go, executionThreadEvents, hp, hv]
  · intro ast e hp he
    simp [execute, go, executionThreadEvents, hp, he]

/-- Witness for C8: the three completion shapes at concrete outcomes. -/
theorem execute_events_spec_witness :
    execute (.error "parse failed") (fun _ => .ok "7") =
      [Event.output "parse failed", Event.exited 1, Event.terminated] ∧
    execute (.ok astW) (fun _ => .ok "7") =
      [Event.output "7", Event.exited 0, Event.terminated] ∧
    execute (.ok astW) (fun _ => .error "division by zero") =
      [Event.output "division by zero", Event.exited 1, Event.terminated] :=
  ⟨(execute_events_spec (.error "parse failed") (fun _ => .ok "7")).1
      "parse failed" rfl,
   (execute_events_spec (.ok astW) (fun _ => .ok "7")).2.1 astW "7" rfl rfl,
   (execute_events_spec (.ok astW) (fun _ => .error "division by zero")).2.2
      astW "division by zero" rfl rfl⟩

/-- C10: a stack frame converted from a call-stack entry with no recorded
location reports line = 0, column = 0 and no source (outside the protocol's
1-based range); the +1 re-indexing and the source attachment happen only when
a location is present. -/
theorem convert_frame_location_spec :
    (∀ id name, (convert_frame id name none).line = 0 ∧
      (convert_frame id name none).column = 0 ∧
      (convert_frame id name none).source = none) ∧
    (∀ id name loc, (convert_frame id name (some loc)).line = loc.begin.line + 1 ∧
      (convert_frame id name (some loc)).column = loc.begin.column + 1 ∧
      (convert_frame id name (some loc)).end_line = some (loc.end_.line + 1) ∧
      (convert_frame id name (some loc)).end_column = some (loc.end_.column + 1) ∧
      (convert_frame id name (some loc)).source = some { path := some loc.file }) :=
  ⟨fun _ _ => ⟨rfl, rfl, rfl⟩, fun _ _ _ => ⟨rfl, rfl, rfl, rfl, rfl⟩⟩

end StarlarkDap
